import Mathlib

/-!
Verification of the Doxygen-XML → TypeScript / Markdown documentation
generators (`tools/doxygen_xml_to_ts.py` and `tools/doxygen_xml_to_md.py`).

The Python string primitives the scripts use (`str.replace`, `str.strip`,
`str.rstrip`, `str.split`, `str.startswith`, `str.endswith`, membership)
are embedded below as executable functions over `String.data` (lists of
characters), mirroring CPython semantics: `replace` substitutes
non-overlapping occurrences left to right, `strip` removes surrounding
whitespace, `rstrip(cs)` removes all trailing characters of the given set,
`split(sep)` splits on every occurrence of a non-empty separator, and
`split(sep, 1)` splits only at the first occurrence.
-/

/-- Python `str.strip()`: drop whitespace from both ends. -/
def pyStrip (s : String) : String :=
  ⟨((s.data.dropWhile Char.isWhitespace).reverse.dropWhile Char.isWhitespace).reverse⟩

/-- Worker for `pyReplace`; the fuel starts at the length of the subject and
bounds the number of characters consumed, which suffices for the non-empty
patterns used by the scripts. -/
def replaceAux (old new : List Char) : Nat → List Char → List Char
  | _, [] => []
  | 0, s => s
  | fuel+1, c :: cs =>
    if old.isPrefixOf (c :: cs) then new ++ replaceAux old new fuel ((c :: cs).drop old.length)
    else c :: replaceAux old new fuel cs

/-- Python `s.replace(old, new)`: replace non-overlapping occurrences, left to right. -/
def pyReplace (s old new : String) : String :=
  ⟨replaceAux old.data new.data s.data.length s.data⟩

/-- Python `s.rstrip(c)` for a one-character set: drop all trailing copies of `c`. -/
def pyRstrip (s : String) (c : Char) : String :=
  ⟨(s.data.reverse.dropWhile (fun d => d == c)).reverse⟩

/-- Python `s.startswith(p)`. -/
def pyStartsWith (s p : String) : Bool := p.data.isPrefixOf s.data

/-- Python `s.endswith(p)`. -/
def pyEndsWith (s p : String) : Bool := p.data.isSuffixOf s.data

/-- Python `c in s` for a single-character needle. -/
def pyContains (s : String) (c : Char) : Bool := s.data.contains c

/-- Worker for `pySplitOn`; accumulates the current piece in reverse. -/
def splitAux (sep : List Char) : Nat → List Char → List Char → List (List Char)
  | _, acc, [] => [acc.reverse]
  | 0, acc, rest => [acc.reverse ++ rest]
  | fuel+1, acc, c :: cs =>
    if sep.isPrefixOf (c :: cs) then acc.reverse :: splitAux sep fuel [] ((c :: cs).drop sep.length)
    else splitAux sep fuel (c :: acc) cs

/-- Python `s.split(sep)` for a non-empty separator. -/
def pySplitOn (s sep : String) : List String :=
  (splitAux sep.data s.data.length [] s.data).map (fun l => (⟨l⟩ : String))

/-- Joins pieces with a separator; together with `pySplitOn` this recovers
Python's `s.split(sep, 1)`: the part after the first separator is
`pyIntercalate sep (pySplitOn s sep).tail`. -/
def pyIntercalate (sep : String) : List String → String
  | [] => ""
  | [s] => s
  | s :: rest => s ++ sep ++ pyIntercalate sep rest

deriving instance DecidableEq for Except

/-- Python truthiness-based `x or d` for an optional string (`None` and `""` are falsy). -/
def pyOr (x : Option String) (d : String) : String :=
  match x with
  | none => d
  | some s => if s = "" then d else s

/-- Python `f"{x}"` for an optional string: `None` formats as `"None"`. -/
def pyStr (x : Option String) : String :=
  match x with
  | none => "None"
  | some s => s

/-! ## doxygen_xml_to_ts.py — type mapping (lines 6-67) -/

/-- The `CSHARP_TO_TS` table (doxygen_xml_to_ts.py lines 6-25), as an
association list; Python dict lookup with a default is `List.lookup` with `getD`. -/
def CSHARP_TO_TS : List (String × String) :=
  [("void", "void"),
   ("bool", "boolean"),
   ("byte", "number"),
   ("sbyte", "number"),
   ("short", "number"),
   ("ushort", "number"),
   ("int", "number"),
   ("uint", "number"),
   ("long", "number"),
   ("ulong", "number"),
   ("float", "number"),
   ("double", "number"),
   ("decimal", "number"),
   ("string", "string"),
   ("object", "any"),
   ("dynamic", "any"),
   ("ScriptObject", "any"),
   ("ScriptFunctionWrapper", "any")]

/-- The `GENERIC_COLLECTIONS` table (lines 27-32); only key membership is used. -/
def GENERIC_COLLECTIONS : List String := ["IList", "IEnumerable", "IReadOnlyList", "List"]

/-- `normalize_type` (doxygen_xml_to_ts.py lines 39-62). The fuel argument
models Python's unbounded mutual recursion with `map_type` on the inner token
of a generic; every recursive call is on a strict substring of the bracketed
token, so any fuel of at least the token length behaves as the Python code.
The two recursive `map_type` call sites inline `map_type`'s empty-token check
(see `map_type_def` below) so that the recursion is structural on the fuel.
When a bracketed token matches neither known generic base, Python falls
through to line 61; that fallback is written once per branch of the bracket
test here. -/
def normalize_type : Nat → String → String
  | 0, _ => ""
  | fuel+1, raw0 =>
    let raw1 := pyReplace (pyStrip (pyReplace raw0 "params " "")) "??" "?"
    let nullable := pyEndsWith raw1 "?"
    let raw := pyRstrip raw1 '?'
    if pyContains raw '<' && pyContains raw '>' then
      let parts := pySplitOn raw "<"
      let base := parts.headD ""
      let inner := pyRstrip (pyIntercalate "<" parts.tail) '>'
      if GENERIC_COLLECTIONS.contains base then
        (if inner = "" then "void" else normalize_type fuel inner) ++ "[]" ++
          (if nullable then " | undefined" else "")
      else if base == "Dictionary" then
        let parts2 := (pySplitOn inner ",").map pyStrip
        let arg2 := parts2.getD 1 ""
        let val := if parts2.length == 2 then
            (if arg2 = "" then "void" else normalize_type fuel arg2)
          else "any"
        "Record<string, " ++ val ++ ">"
      else
        (CSHARP_TO_TS.lookup raw).getD raw ++ (if nullable then " | undefined" else "")
    else
      (CSHARP_TO_TS.lookup raw).getD raw ++ (if nullable then " | undefined" else "")

/-- `map_type` (lines 64-67): empty token means `void`, otherwise normalize. -/
def map_type (fuel : Nat) (raw : String) : String :=
  if raw = "" then "void" else normalize_type fuel raw

/-- `map_type` at a fuel that is always sufficient for its token. -/
def mapType (raw : String) : String := map_type (raw.length + 1) raw

/-- `normalize_type` at a fuel that is always sufficient for its token. -/
def normalizeType (raw : String) : String := normalize_type (raw.length + 1) raw

/-! ## The consumed slice of a Doxygen XML document

Both scripts read the same structural elements of a document. An element's
aggregate text (Python `"".join(elem.itertext())`, or the space-joined
variant `collect_text` of the Markdown script) is modelled as a plain
`String` field; a possibly missing child element is an `Option`. The helper
`text` below is `doxygen_xml_to_ts.py` lines 34-37 (`find` + `itertext` +
`strip`), and `findtext` results are `Option String` used directly (Python
`findtext` yields `None` for a missing element and the raw, unstripped text
otherwise). -/

/-- The `text(elem)` helper (doxygen_xml_to_ts.py lines 34-37): empty string
for a missing element, stripped aggregate text otherwise. -/
def text (elem : Option String) : String :=
  match elem with
  | none => ""
  | some s => pyStrip s

/-- One `param` child of a `memberdef`: `declname`/`defval` via `findtext`
(raw), `type` as an element whose aggregate text is read via `text`.
The TypeScript generator never reads `defval`; the Markdown generator does. -/
structure Param where
  declname : Option String
  type : Option String
  defval : Option String
  deriving Repr, DecidableEq

/-- One `parameteritem` inside a `detaileddescription`. -/
structure ParameterItem where
  parametername : Option String
  parameterdescription : Option String
  deriving Repr, DecidableEq

/-- The consumed slice of a `detaileddescription` element: its own aggregate
text (used as a summary fallback), its `parameteritem` descendants and its
`simplesect` descendants (attribute `kind` paired with aggregate text), both
in document order. -/
structure DetailedDesc where
  content : String
  parameteritems : List ParameterItem
  simplesects : List (String × String)
  deriving Repr, DecidableEq

/-- A `memberdef` element as consumed by the TypeScript generator. -/
structure Memberdef where
  name : Option String
  type : Option String
  briefdescription : Option String
  detaileddescription : Option DetailedDesc
  params : List Param
  deriving Repr, DecidableEq

/-- A `sectiondef` element: its `kind` attribute and its `memberdef` children. -/
structure Sectiondef where
  kind : Option String
  members : List Memberdef
  deriving Repr, DecidableEq

/-- A `compounddef` element: its `compoundname` (via `findtext`, hence
optional) and its `sectiondef` children. -/
structure Compounddef where
  compoundname : Option String
  sections : List Sectiondef
  deriving Repr, DecidableEq

/-- One input file of the glob: either `ET.parse` raises (malformed XML), or
it yields a tree whose root may or may not have a `compounddef` child. -/
inductive XmlDoc where
  | malformed : XmlDoc
  | parsed : Option Compounddef → XmlDoc
  deriving Repr, DecidableEq

/-! ## doxygen_xml_to_ts.py — extraction (lines 69-135) -/

/-- One record of the `functions` map: the fields appended at lines 127-133. -/
structure Overload where
  params : List String
  ret : String
  summary : String
  param_docs : List String
  returns_doc : String
  deriving Repr, DecidableEq

/-- The accumulated `functions = defaultdict(list)` of line 70: keys in first
insertion order (as in a Python dict), each key holding its overload list.
A member with no `name` element would put the key `None` in the dict, so the
key type is `Option String`. -/
abbrev Functions := List (Option String × List Overload)

/-- `functions[name].append(rec)` on a `defaultdict(list)` (line 127): append
to the existing key's list, or add a fresh key at the end. Generic so the
Markdown script's namespace grouping can reuse it. -/
def py_append_group {κ β : Type} [BEq κ] (fns : List (κ × List β)) (k : κ) (v : β) :
    List (κ × List β) :=
  match fns with
  | [] => [(k, [v])]
  | (k0, vs) :: rest =>
    if k0 == k then (k0, vs ++ [v]) :: rest else (k0, vs) :: py_append_group rest k v

/-- Folding `py_append_group` over a sequence of keyed records: the grouping
that `parse_xml_dir` performs across all members it keeps. -/
def py_group {κ β : Type} [BEq κ] (entries : List (κ × β)) : List (κ × List β) :=
  entries.foldl (fun acc e => py_append_group acc e.1 e.2) []

/-- Reads the overload list stored under a key (empty when absent). -/
def groupLookup {κ β : Type} [BEq κ] (k : κ) (fns : List (κ × List β)) : List β :=
  match fns.find? (fun kv => kv.1 == k) with
  | some kv => kv.2
  | none => []

/-- Python dict assignment `d[k] = v` on an insertion-ordered association
list: overwrite in place, or append a fresh key. -/
def dict_set (d : List (String × String)) (k v : String) : List (String × String) :=
  match d with
  | [] => [(k, v)]
  | (k0, v0) :: rest => if k0 == k then (k0, v) :: rest else (k0, v0) :: dict_set rest k v

/-- The parameter-name fallback of line 114: `p.findtext("declname") or "arg"`. -/
def param_name (p : Param) : String := pyOr p.declname "arg"

/-- The parameter rendering of lines 113-122: rest parameter when the
normalized type ends in `[]` and the raw token starts with `params`,
optional parameter when the normalized type ends in `| undefined` (dropping
the ` | undefined` suffix), plain `name: Type` otherwise. -/
def render_param (p : Param) : String :=
  let pname := param_name p
  let rawType := text p.type
  let ptype := mapType rawType
  if pyEndsWith ptype "[]" && pyStartsWith rawType "params" then
    "..." ++ pname ++ ": " ++ ptype
  else if pyEndsWith ptype "| undefined" then
    pname ++ "?: " ++ pyReplace ptype " | undefined" ""
  else
    pname ++ ": " ++ ptype

/-- The return-documentation extraction of lines 106-108:
`deta.find(".//simplesect[@kind='return']")` takes the first `simplesect`
descendant (document order) whose `kind` attribute is `return`. -/
def returnsDocOf (deta : Option DetailedDesc) : String :=
  match deta with
  | none => ""
  | some d =>
    match d.simplesects.find? (fun s => s.1 == "return") with
    | some r => text (some r.2)
    | none => ""

/-- Builds the record appended at lines 127-133 from one kept `memberdef`:
return type (line 89), summary with detailed-description fallback (91-93),
the `param_docs` dict (95-104), the first return `simplesect` (106-108), the
rendered parameter list and the `@param` JSDoc lines (110-125). Python fills
`params` and `jsdoc` in a single loop over `m.findall("param")`; the two
traversals here visit the same parameters in the same order. -/
def build_overload (m : Memberdef) : Overload :=
  let ret := mapType (text m.type)
  let summary0 := text m.briefdescription
  let summary := if summary0 = "" then text (m.detaileddescription.map DetailedDesc.content)
    else summary0
  let param_docs := match m.detaileddescription with
    | none => []
    | some d =>
      d.parameteritems.foldl (fun acc (p : ParameterItem) =>
        let pname := text p.parametername
        let pdesc := text p.parameterdescription
        if pname ≠ "" && pdesc ≠ "" then dict_set acc pname pdesc else acc) []
  let jsdoc := m.params.filterMap (fun p =>
    match param_docs.lookup (param_name p) with
    | some d => some (" * @param " ++ param_name p ++ " " ++ d)
    | none => none)
  { params := m.params.map render_param
    ret := ret
    summary := summary
    param_docs := jsdoc
    returns_doc := returnsDocOf m.detaileddescription }

/-- Processing of one `compounddef` (lines 80-133): only `sectiondef`s with
`kind="public-func"` are visited; a member whose `name` equals the last
`::`-segment of the compound name is skipped (the line-86 check — no
return-type condition); every other member is appended under its name. If
`compoundname` is missing, Python's `None.split` raises at the first visited
member, aborting the run, which the `Except.error` models. -/
def process_compound (c : Compounddef) (fns : Functions) : Except Unit Functions :=
  c.sections.foldlM (fun fns sec =>
    if sec.kind == some "public-func" then
      sec.members.foldlM (fun fns m =>
        match c.compoundname with
        | none => Except.error ()
        | some cn =>
          let cls := (pySplitOn cn "::").getLastD ""
          if m.name == some cls then Except.ok fns
          else Except.ok (py_append_group fns m.name (build_overload m))) fns
    else Except.ok fns) fns

/-- The body of the per-document loop of `parse_xml_dir` (lines 72-78): a
document on which `ET.parse` raises stops the whole run (the exception
propagates out of `main`); a document whose root has no `compounddef` child
is skipped by the line-77 `continue`; otherwise its compound is processed. -/
def parse_step (fns : Functions) (doc : XmlDoc) : Except Unit Functions :=
  match doc with
  | XmlDoc.malformed => Except.error ()
  | XmlDoc.parsed none => Except.ok fns
  | XmlDoc.parsed (some compound) => process_compound compound fns

/-- `parse_xml_dir` (lines 69-135) over the documents of the glob, in the
order the directory yields them. -/
def parse_xml_dir (docs : List XmlDoc) : Except Unit Functions :=
  docs.foldlM parse_step []

/-! ## doxygen_xml_to_ts.py — emission (lines 137-159) -/

/-- Lexicographic comparison of character lists by code point, the order
Python uses on `str`. -/
def lexLe : List Char → List Char → Bool
  | [], _ => true
  | _ :: _, [] => false
  | a :: as, b :: bs =>
    if a.val.toNat < b.val.toNat then true
    else if b.val.toNat < a.val.toNat then false
    else lexLe as bs

/-- Python string `<=` (code-point lexicographic). -/
def strLe (s t : String) : Bool := lexLe s.data t.data

/-- Inserts into an already sorted list, before the first larger element. -/
def insort {α : Type} (le : α → α → Bool) (a : α) : List α → List α
  | [] => [a]
  | b :: l => if le a b then a :: b :: l else b :: insort le a l

/-- A stable sort by a boolean comparison; for a total preorder it computes
the same list as Python's stable `sorted`. -/
def py_sorted {α : Type} (le : α → α → Bool) : List α → List α
  | [] => []
  | a :: l => insort le a (py_sorted le l)

/-- `sorted(functions.items())` of line 141. Python compares the `(key,
value)` tuples componentwise, which for the distinct keys a dict yields is a
comparison of the keys; a `None` key would make Python's `sorted` raise when
mixed with string keys, and is ordered here like the string it is formatted
as at line 156. -/
def sorted_items (fns : Functions) : Functions :=
  py_sorted (fun a b => strLe (pyStr a.1) (pyStr b.1)) fns

/-- Lines emitted for one overload (lines 142-156): the optional JSDoc block
(only when a summary, a `@param` line or a return doc is present), then the
single declaration line. A `None` name formats as `"None"` in the f-string
of line 156. -/
def emit_overload_lines (name : Option String) (o : Overload) : List String :=
  let has_docs := !(o.summary == "") || !(o.param_docs.isEmpty) || !(o.returns_doc == "")
  (if has_docs then
      ["  /**"] ++
      (if o.summary == "" then [] else ["   * " ++ o.summary]) ++
      o.param_docs.map (fun p => "   " ++ p) ++
      (if o.returns_doc == "" then [] else ["   * @returns " ++ o.returns_doc]) ++
      ["   */"]
    else []) ++
  ["  function " ++ pyStr name ++ "(" ++ pyIntercalate ", " o.params ++ "): " ++ o.ret ++ ";"]

/-- `emit_ts` (lines 137-159), as the list of lines written to the output
file: the fixed `declare namespace wkit {` header, every overload of every
method name in sorted-key order, the closing brace. -/
def emit_ts (fns : Functions) : List String :=
  ["declare namespace wkit \x7b"] ++
  (sorted_items fns).flatMap (fun kv => kv.2.flatMap (emit_overload_lines kv.1)) ++
  ["\x7d"]

/-! ## doxygen_xml_to_md.py — the parts the claims touch -/

/-- `is_constructor` (doxygen_xml_to_md.py lines 131-145), over the three
strings the function reads from the element: `ret_type` is
`collect_text(memberdef.find("type")).strip()`, `name` and `qualified` are
`findtext` results defaulted to `""` and stripped. A non-empty return type
is never a constructor; otherwise the name must equal the second-to-last
segment of the qualified name after normalising `::` to `.`. -/
def is_constructor (ret_type name qualified : String) : Bool :=
  if ret_type ≠ "" then false
  else
    let parts := pySplitOn (pyReplace qualified "::" ".") "."
    let class_name := if parts.length ≥ 2 then parts.getD (parts.length - 2) "" else ""
    name == class_name

/-- The return-documentation loop of `extract_docs` (doxygen_xml_to_md.py
lines 71-74): iterate every `simplesect` descendant in document order and
overwrite `returns` on each one whose `kind` is `return`. `collect_text`
strips its result, so the net effect per match is the stripped text. -/
def extract_docs_returns (simplesects : List (String × String)) : String :=
  simplesects.foldl (fun returns s => if s.1 == "return" then pyStrip s.2 else returns) ""

/-- The slice of a parsed method record that the ordering claims touch
(doxygen_xml_to_md.py lines 211-216). -/
structure MdMethod where
  «namespace» : String
  method_name : String
  signature : String
  deriving Repr, DecidableEq

/-- `organize_by_namespace` (lines 225-231): a `defaultdict(list)` append
over the methods in encounter order. -/
def organize_by_namespace (all_methods : List MdMethod) : List (String × List MdMethod) :=
  all_methods.foldl (fun acc m => py_append_group acc m.«namespace» m) []

/-- `sorted(by_namespace.keys())` (line 242): the namespaces of the grouping,
alphabetically sorted; `generate_markdown` then iterates the methods of each
namespace in their stored (encounter) order. -/
def sorted_namespaces (by_namespace : List (String × List MdMethod)) : List String :=
  py_sorted strLe (by_namespace.map (fun kv => kv.1))

/-! ## Infrastructure lemmas -/

theorem lexLe_total : ∀ s t : List Char, lexLe s t = true ∨ lexLe t s = true
  | [], _ => Or.inl rfl
  | _ :: _, [] => Or.inr rfl
  | a :: as, b :: bs => by
    simp only [lexLe]
    by_cases h1 : a.val.toNat < b.val.toNat
    · simp [h1]
    · by_cases h2 : b.val.toNat < a.val.toNat
      · simp [h1, h2]
      · simpa [h1, h2] using lexLe_total as bs

theorem lexLe_trans :
    ∀ r s t : List Char, lexLe r s = true → lexLe s t = true → lexLe r t = true
  | [], _, _, _, _ => rfl
  | _ :: _, [], _, h1, _ => by simp [lexLe] at h1
  | _ :: _, _ :: _, [], _, h2 => by simp [lexLe] at h2
  | a :: as, b :: bs, c :: cs, h1, h2 => by
    simp only [lexLe] at h1 h2 ⊢
    by_cases hab : a.val.toNat < b.val.toNat
    · by_cases hbc : b.val.toNat < c.val.toNat
      · simp [show a.val.toNat < c.val.toNat from by omega]
      · by_cases hcb : c.val.toNat < b.val.toNat
        · rw [if_neg hbc, if_pos hcb] at h2
          exact absurd h2 (by decide)
        · simp [show a.val.toNat < c.val.toNat from by omega]
    · by_cases hba : b.val.toNat < a.val.toNat
      · rw [if_neg hab, if_pos hba] at h1
        exact absurd h1 (by decide)
      · rw [if_neg hab, if_neg hba] at h1
        by_cases hbc : b.val.toNat < c.val.toNat
        · simp [show a.val.toNat < c.val.toNat from by omega]
        · by_cases hcb : c.val.toNat < b.val.toNat
          · rw [if_neg hbc, if_pos hcb] at h2
            exact absurd h2 (by decide)
          · rw [if_neg hbc, if_neg hcb] at h2
            rw [if_neg (show ¬a.val.toNat < c.val.toNat from by omega),
              if_neg (show ¬c.val.toNat < a.val.toNat from by omega)]
            exact lexLe_trans as bs cs h1 h2

theorem strLe_total (s t : String) : strLe s t = true ∨ strLe t s = true :=
  lexLe_total s.data t.data

theorem strLe_trans (r s t : String) :
    strLe r s = true → strLe s t = true → strLe r t = true :=
  lexLe_trans r.data s.data t.data

theorem perm_insort {α : Type} (le : α → α → Bool) (a : α) :
    ∀ l : List α, List.Perm (insort le a l) (a :: l)
  | [] => List.Perm.refl _
  | b :: l => by
    rw [insort]
    split
    · exact List.Perm.refl _
    · exact ((perm_insort le a l).cons b).trans (List.Perm.swap a b l)

theorem pairwise_insort {α : Type} (le : α → α → Bool)
    (htotal : ∀ a b, le a b = true ∨ le b a = true)
    (htrans : ∀ a b c, le a b = true → le b c = true → le a c = true) (a : α) :
    ∀ l : List α, l.Pairwise (fun x y => le x y = true) →
      (insort le a l).Pairwise (fun x y => le x y = true)
  | [], _ => by simp [insort]
  | b :: l, h => by
    rw [insort]
    by_cases hab : le a b = true
    · rw [if_pos hab]
      refine List.Pairwise.cons (fun x hx => ?_) h
      rcases List.mem_cons.mp hx with rfl | hx
      · exact hab
      · exact htrans a b x hab (List.rel_of_pairwise_cons h hx)
    · rw [if_neg hab]
      refine List.Pairwise.cons (fun x hx => ?_)
        (pairwise_insort le htotal htrans a l h.of_cons)
      rcases List.mem_cons.mp ((perm_insort le a l).mem_iff.mp hx) with hxa | hx
      · rw [hxa]
        exact (htotal a b).resolve_left hab
      · exact List.rel_of_pairwise_cons h hx

theorem perm_py_sorted {α : Type} (le : α → α → Bool) :
    ∀ l : List α, List.Perm (py_sorted le l) l
  | [] => List.Perm.refl _
  | a :: l => (perm_insort le a _).trans ((perm_py_sorted le l).cons a)

theorem pairwise_py_sorted {α : Type} (le : α → α → Bool)
    (htotal : ∀ a b, le a b = true ∨ le b a = true)
    (htrans : ∀ a b c, le a b = true → le b c = true → le a c = true) :
    ∀ l : List α, (py_sorted le l).Pairwise (fun x y => le x y = true)
  | [] => List.Pairwise.nil
  | a :: l => pairwise_insort le htotal htrans a _ (pairwise_py_sorted le htotal htrans l)

theorem groupLookup_py_append_group {κ β : Type} [BEq κ] [LawfulBEq κ]
    (fns : List (κ × List β)) (k k' : κ) (v : β) :
    groupLookup k (py_append_group fns k' v) =
      if k' == k then groupLookup k fns ++ [v] else groupLookup k fns := by
  induction fns with
  | nil =>
    by_cases h : k' = k
    · subst h
      simp [py_append_group, groupLookup, List.find?]
    · have hb : (k' == k) = false := by simp [h]
      simp [py_append_group, groupLookup, List.find?, hb]
  | cons hd tl ih =>
    obtain ⟨k0, vs⟩ := hd
    by_cases h0 : k0 = k'
    · subst h0
      by_cases hk : k0 = k
      · subst hk
        simp [py_append_group, groupLookup, List.find?]
      · have hb : (k0 == k) = false := by simp [hk]
        simp [py_append_group, groupLookup, List.find?, hb]
    · have hb0 : (k0 == k') = false := by simp [h0]
      by_cases hk0 : k0 = k
      · subst hk0
        have hne : ¬(k' = k0) := fun h => h0 h.symm
        have hb' : (k' == k0) = false := by simp [hne]
        simp [py_append_group, groupLookup, List.find?, hb0, hb']
      · have hbk : (k0 == k) = false := by simp [hk0]
        simpa [py_append_group, groupLookup, List.find?, hb0, hbk] using ih

theorem groupLookup_foldl {κ β : Type} [BEq κ] [LawfulBEq κ] (k : κ) :
    ∀ (entries : List (κ × β)) (fns : List (κ × List β)),
    groupLookup k (entries.foldl (fun acc e => py_append_group acc e.1 e.2) fns) =
      groupLookup k fns ++ (entries.filter (fun e => e.1 == k)).map (fun e => e.2)
  | [], fns => by simp
  | e :: entries, fns => by
    rw [List.foldl_cons, groupLookup_foldl k entries, groupLookup_py_append_group]
    by_cases h : e.1 = k
    · simp [List.filter_cons, h]
    · simp [List.filter_cons, h]

theorem py_group_lookup {κ β : Type} [BEq κ] [LawfulBEq κ]
    (entries : List (κ × β)) (k : κ) :
    groupLookup k (py_group entries) =
      (entries.filter (fun e => e.1 == k)).map (fun e => e.2) := by
  simpa [groupLookup] using groupLookup_foldl k entries []

theorem find?_eq_head?_filter {α : Type} (p : α → Bool) :
    ∀ l : List α, l.find? p = (l.filter p).head?
  | [] => rfl
  | a :: l => by
    by_cases h : p a
    · rw [List.find?_cons_of_pos _ h, List.filter_cons_of_pos h, List.head?_cons]
    · rw [List.find?_cons_of_neg _ h, List.filter_cons_of_neg h]
      exact find?_eq_head?_filter p l

theorem foldl_overwrite {α β : Type} (p : α → Bool) (g : α → β) :
    ∀ (l : List α) (init : β),
    l.foldl (fun acc s => if p s then g s else acc) init =
      ((l.reverse.find? p).map g).getD init
  | [], _ => rfl
  | a :: l, init => by
    rw [List.foldl_cons, foldl_overwrite p g l, List.reverse_cons, List.find?_append]
    cases hl : l.reverse.find? p with
    | some x => simp
    | none =>
      by_cases h : p a <;> simp [List.find?_cons, h]

theorem reverse_find?_eq_getLast?_filter {α : Type} (p : α → Bool) (l : List α) :
    l.reverse.find? p = (l.filter p).getLast? := by
  rw [find?_eq_head?_filter, List.filter_reverse, List.head?_reverse]

/-- The recursive call sites inside `normalize_type` are exactly `map_type`. -/
theorem map_type_def (fuel : Nat) (raw : String) :
    map_type fuel raw = if raw = "" then "void" else normalize_type fuel raw := rfl

theorem parse_xml_dir_singleton (c : Compounddef) :
    parse_xml_dir [XmlDoc.parsed (some c)] = process_compound c [] := by
  simp [parse_xml_dir, parse_step, List.foldlM, bind_pure]

theorem foldlM_parse_malformed :
    ∀ (pre : List XmlDoc) (fns : Functions) (post : List XmlDoc),
    List.foldlM parse_step fns (pre ++ XmlDoc.malformed :: post) =
      List.foldlM parse_step fns (pre ++ [XmlDoc.malformed])
  | [], _, _ => rfl
  | d :: pre, fns, post => by
    rw [List.cons_append, List.cons_append, List.foldlM_cons, List.foldlM_cons]
    cases hstep : parse_step fns d with
    | error e => rfl
    | ok a => exact foldlM_parse_malformed pre a post

theorem foldlM_parse_skip :
    ∀ (pre : List XmlDoc) (fns : Functions) (post : List XmlDoc),
    List.foldlM parse_step fns (pre ++ XmlDoc.parsed none :: post) =
      List.foldlM parse_step fns (pre ++ post)
  | [], _, _ => rfl
  | d :: pre, fns, post => by
    rw [List.cons_append, List.cons_append, List.foldlM_cons, List.foldlM_cons]
    cases hstep : parse_step fns d with
    | error e => rfl
    | ok a => exact foldlM_parse_skip pre a post

theorem data_reverse_record (v : String) :
    ("Record<string, " ++ v ++ ">").data.reverse = '>' :: ("Record<string, " ++ v).data.reverse := by
  rw [String.data_append, show ">".data = ['>'] from rfl, List.reverse_append]
  rfl

theorem pyEndsWith_record_undefined (v : String) :
    pyEndsWith ("Record<string, " ++ v ++ ">") "| undefined" = false := by
  show List.isPrefixOf ("| undefined".data.reverse)
    (("Record<string, " ++ v ++ ">").data.reverse) = false
  rw [data_reverse_record]
  rfl

theorem pyEndsWith_record_brackets (v : String) :
    pyEndsWith ("Record<string, " ++ v ++ ">") "[]" = false := by
  show List.isPrefixOf ("[]".data.reverse)
    (("Record<string, " ++ v ++ ">").data.reverse) = false
  rw [data_reverse_record]
  rfl

/-! ## The claims -/

/-- C1, counterexample. In the TypeScript generator, a public member named
like its enclosing class but with the non-empty return-type token `bool` is
nevertheless excluded: parsing a compound `Foo` containing only that member
yields an empty declaration map, contradicting the claim that such a member
"is not a constructor and is kept in the declaration tree". -/
theorem c1_counterexample :
    parse_xml_dir [XmlDoc.parsed (some ⟨some "Foo",
      [⟨some "public-func", [⟨some "Foo", some "bool", none, none, []⟩]⟩]⟩)] =
    Except.ok [] := by decide

/-- C1, amended. In the TypeScript generator a member of a public-func
section is excluded exactly when its simple name equals the last
`::`-segment of the compound name, with no condition on its return-type
token; in the Markdown generator `is_constructor` additionally requires the
collected return-type text to be empty, so only there does a same-named
member with a non-empty return type survive. -/
theorem c1_amended :
    (∀ (cn : String) (m : Memberdef),
      parse_xml_dir [XmlDoc.parsed (some ⟨some cn, [⟨some "public-func", [m]⟩]⟩)] =
        Except.ok (if m.name == some ((pySplitOn cn "::").getLastD "") then []
          else [(m.name, [build_overload m])])) ∧
    (∀ ret_type name qualified : String,
      is_constructor ret_type name qualified = true ↔
        (ret_type = "" ∧
          name = (let parts := pySplitOn (pyReplace qualified "::" ".") ".";
            if parts.length ≥ 2 then parts.getD (parts.length - 2) "" else ""))) := by
  constructor
  · intro cn m
    rw [parse_xml_dir_singleton]
    by_cases h : m.name = some ((pySplitOn cn "::").getLast?.getD "")
    · have hb : (m.name == some ((pySplitOn cn "::").getLastD "")) = true := by
        simp [List.getLastD_eq_getLast?, h]
      simp [process_compound, List.foldlM, hb, h]
    · have hb : (m.name == some ((pySplitOn cn "::").getLastD "")) = false := by
        simp [List.getLastD_eq_getLast?, h]
      simp [process_compound, List.foldlM, hb, h, py_append_group]
  · intro ret_type name qualified
    by_cases h : ret_type = ""
    · simp [is_constructor, h]
    · simp [is_constructor, h]

/-- C2, counterexample. The type token `int[]?` on a parameter named `name`
is rendered as `name?: int[]`, not as the claimed `name?: number[]`:
`normalize_type` has no handling for a trailing array marker, so `int[]`
falls through the primitive table unmapped. -/
theorem c2_counterexample :
    render_param ⟨some "name", some "int[]?", none⟩ = "name?: int[]" ∧
    "name?: int[]" ≠ "name?: number[]" := by decide

/-- C2, amended. For the token `int[]?` the trailing nullable marker is
stripped and absorbed into optionality exactly as claimed (the rendering is
optional and never carries `| undefined`), but the trailing array marker is
not specially handled and the element type is not mapped: normalization
passes `int[]` through as an opaque name, so the parameter renders as
`name?: int[]` rather than `name?: number[]`. -/
theorem c2_amended :
    normalizeType "int[]?" = "int[] | undefined" ∧
    render_param ⟨some "name", some "int[]?", none⟩ = "name?: int[]" ∧
    pyEndsWith (render_param ⟨some "name", some "int[]?", none⟩) "| undefined" = false := by
  decide

/-- C3, counterexample. A parameter named `items` whose type token carries
both the variadic marker and a trailing nullable marker (`params int[]?`) is
not rendered as a rest parameter: normalization appends ` | undefined`, so
the rest-parameter guard (normalized type ends in `[]`) fails and the
optional-parameter branch fires instead, producing `items?: int[]`. -/
theorem c3_counterexample :
    render_param ⟨some "items", some "params int[]?", none⟩ = "items?: int[]" ∧
    pyStartsWith (render_param ⟨some "items", some "params int[]?", none⟩) "..." = false := by
  decide

/-- C3, amended. A parameter is rendered as a rest/spread parameter
`...name: T` exactly under the line-117 guard: its normalized type must end
with the array marker `[]` and its raw token must start with `params`. A
trailing nullable marker defeats the first condition (the normalized type
then ends in ` | undefined`), so the claim's "regardless of any nullable
marker" does not hold; without a nullable marker the rest rendering goes
through as claimed. -/
theorem c3_amended (p : Param)
    (h1 : pyEndsWith (mapType (text p.type)) "[]" = true)
    (h2 : pyStartsWith (text p.type) "params" = true) :
    render_param p = "..." ++ param_name p ++ ": " ++ mapType (text p.type) := by
  simp [render_param, h1, h2]

/-- C3, witness: the rest rendering at the concrete variadic parameter
`params List<int>` named `items`, which normalizes to `number[]`. -/
theorem c3_witness :
    pyEndsWith (mapType (text (some "params List<int>"))) "[]" = true ∧
    pyStartsWith (text (some "params List<int>")) "params" = true ∧
    render_param ⟨some "items", some "params List<int>", none⟩ =
      "..." ++ param_name ⟨some "items", some "params List<int>", none⟩ ++ ": " ++
        mapType (text (some "params List<int>")) :=
  ⟨by decide, by decide, c3_amended ⟨some "items", some "params List<int>", none⟩
    (by decide) (by decide)⟩

/-- C4 (confirmed). A method `Foo` with parameters `(int x, string? y =
null)` and return-type token `bool`, carrying no documentation, parsed from
a compound and emitted, produces exactly one declaration line reading
`Foo(x: number, y?: string): boolean;` (with the emitter's fixed
`  function ` prefix of every declaration line), preceded by no comment
block: the whole output is the namespace header, that single line, and the
closing brace. -/
theorem c4_end_to_end :
    (parse_xml_dir [XmlDoc.parsed (some ⟨some "ScriptFunctions",
      [⟨some "public-func", [⟨some "Foo", some "bool", none, none,
        [⟨some "x", some "int", none⟩, ⟨some "y", some "string?", some "null"⟩]⟩]⟩]⟩)]).map
      emit_ts =
    Except.ok ["declare namespace wkit \x7b",
      "  function " ++ "Foo(x: number, y?: string): boolean;", "\x7d"] := by decide

/-- C5, counterexample. In the TypeScript emitter, method names are *sorted*
rather than kept in source encounter order: two methods encountered as `b`
then `a` are emitted as `a` then `b`, never as `b` then `a`. -/
theorem c5_counterexample :
    (parse_xml_dir [XmlDoc.parsed (some ⟨some "C",
      [⟨some "public-func", [⟨some "b", some "void", none, none, []⟩,
        ⟨some "a", some "void", none, none, []⟩]⟩]⟩)]).map emit_ts =
      Except.ok ["declare namespace wkit \x7b",
        "  function a(): void;", "  function b(): void;", "\x7d"] ∧
    (parse_xml_dir [XmlDoc.parsed (some ⟨some "C",
      [⟨some "public-func", [⟨some "b", some "void", none, none, []⟩,
        ⟨some "a", some "void", none, none, []⟩]⟩]⟩)]).map emit_ts ≠
      Except.ok ["declare namespace wkit \x7b",
        "  function b(): void;", "  function a(): void;", "\x7d"] := by decide

/-- C5, amended. At emission time the TypeScript generator sorts *method
names* alphabetically (line 141's `sorted(functions.items())`), while the
overloads stored under each method name are carried as one unit of the
sorted pairs — hence in source encounter order; the Markdown generator sorts
namespaces alphabetically and emits each namespace's methods in source
encounter order (the grouping stores exactly the encounter-ordered
subsequence of each namespace). -/
theorem c5_amended :
    (∀ fns : Functions, (sorted_items fns).Pairwise
      (fun a b => strLe (pyStr a.1) (pyStr b.1) = true)) ∧
    (∀ fns : Functions, List.Perm (sorted_items fns) fns) ∧
    (∀ ms : List MdMethod, (sorted_namespaces (organize_by_namespace ms)).Pairwise
      (fun a b => strLe a b = true)) ∧
    (∀ (ms : List MdMethod) (ns : String),
      groupLookup ns (organize_by_namespace ms) =
        ms.filter (fun m => m.«namespace» == ns)) := by
  refine ⟨fun fns => ?_, fun fns => perm_py_sorted _ fns, fun ms => ?_, fun ms ns => ?_⟩
  · exact pairwise_py_sorted _
      (fun a b => strLe_total (pyStr a.1) (pyStr b.1))
      (fun a b c => strLe_trans (pyStr a.1) (pyStr b.1) (pyStr c.1)) fns
  · exact pairwise_py_sorted strLe strLe_total strLe_trans _
  · have h1 : organize_by_namespace ms =
        (ms.map (fun m => (m.«namespace», m))).foldl
          (fun acc e => py_append_group acc e.1 e.2) [] := by
      rw [List.foldl_map]
      rfl
    rw [h1, groupLookup_foldl]
    simp [groupLookup, List.filter_map, List.map_map, Function.comp_def]

/-- C6 (confirmed). Grouping appends each record under its method-name key
in source encounter order with no deduplication: the list stored under a key
is exactly the encounter-ordered subsequence of records carrying that key.
Concretely, a method `M` appearing twice with identical signatures is kept
twice and emitted as two identical consecutive declaration lines. -/
theorem c6_overloads :
    (∀ (entries : List (Option String × Overload)) (k : Option String),
      groupLookup k (py_group entries) =
        (entries.filter (fun e => e.1 == k)).map (fun e => e.2)) ∧
    ((parse_xml_dir [XmlDoc.parsed (some ⟨some "C",
      [⟨some "public-func", [⟨some "M", some "void", none, none, []⟩,
        ⟨some "M", some "void", none, none, []⟩]⟩]⟩)]).map emit_ts =
      Except.ok ["declare namespace wkit \x7b",
        "  function M(): void;", "  function M(): void;", "\x7d"]) :=
  ⟨fun entries k => py_group_lookup entries k, by decide⟩

/-- C7, counterexample. A well-formed document that lacks a `compounddef`
child does not abort the run: it is skipped by the line-77 `continue`, and a
later document is still processed and emitted, contradicting the claim that
such a document is fatal with no processing of the remaining documents. -/
theorem c7_counterexample :
    (parse_xml_dir [XmlDoc.parsed none,
      XmlDoc.parsed (some ⟨some "C",
        [⟨some "public-func", [⟨some "a", some "void", none, none, []⟩]⟩]⟩)]).map emit_ts =
    Except.ok ["declare namespace wkit \x7b", "  function a(): void;", "\x7d"] := by decide

/-- C7, amended. A document on which XML parsing raises is fatal: however it
is placed, the run's result equals that of the run truncated at the
malformed document, so no later document is processed. A document lacking a
recognizable compound declaration, by contrast, is silently skipped: the
run's result is as if the document were absent. -/
theorem c7_amended :
    (∀ (pre post : List XmlDoc),
      parse_xml_dir (pre ++ XmlDoc.malformed :: post) =
        parse_xml_dir (pre ++ [XmlDoc.malformed])) ∧
    (∀ (pre post : List XmlDoc),
      parse_xml_dir (pre ++ XmlDoc.parsed none :: post) = parse_xml_dir (pre ++ post)) :=
  ⟨fun pre post => foldlM_parse_malformed pre [] post,
   fun pre post => foldlM_parse_skip pre [] post⟩

/-- C8, counterexample. For a detailed description containing two
return-annotation elements `A` then `B`, the Markdown generator's
`extract_docs` attaches `B` — the *last* match, not the first — because its
loop overwrites `returns` on every match; the TypeScript generator attaches
`A`. This contradicts the claim that for every member the first match wins
and subsequent matches are ignored. -/
theorem c8_counterexample :
    extract_docs_returns [("return", "A"), ("return", "B")] = "B" ∧
    returnsDocOf (some ⟨"", [], [("return", "A"), ("return", "B")]⟩) = "A" ∧
    ("B" : String) ≠ "A" := by decide

/-- C8, amended. The TypeScript generator's return documentation is the
stripped text of the *first* return-annotation element in document order
(`find` with an attribute filter); the Markdown generator's is the stripped
text of the *last* such element (its loop overwrites on each match). -/
theorem c8_amended (d : DetailedDesc) :
    returnsDocOf (some d) =
      (((d.simplesects.filter (fun s => s.1 == "return")).head?.map
        (fun s => pyStrip s.2)).getD "") ∧
    extract_docs_returns d.simplesects =
      (((d.simplesects.filter (fun s => s.1 == "return")).getLast?.map
        (fun s => pyStrip s.2)).getD "") := by
  constructor
  · cases h : (d.simplesects.filter (fun s => s.1 == "return")).head? with
    | none => simp [returnsDocOf, find?_eq_head?_filter, h, text]
    | some x => simp [returnsDocOf, find?_eq_head?_filter, h, text]
  · have hfold := foldl_overwrite (fun s : String × String => s.1 == "return")
      (fun s => pyStrip s.2) d.simplesects ""
    rw [reverse_find?_eq_getLast?_filter] at hfold
    simpa [extract_docs_returns] using hfold

/-- C8, witness: the amended characterization evaluated on a detailed
description holding two return annotations, `A` first and `B` last. -/
theorem c8_witness :
    returnsDocOf (some ⟨"", [], [("return", "A"), ("return", "B")]⟩) =
      ((([(("return" : String), ("A" : String)), ("return", "B")].filter
        (fun s => s.1 == "return")).head?.map (fun s => pyStrip s.2)).getD "") ∧
    extract_docs_returns [("return", "A"), ("return", "B")] =
      ((([(("return" : String), ("A" : String)), ("return", "B")].filter
        (fun s => s.1 == "return")).getLast?.map (fun s => pyStrip s.2)).getD "") :=
  c8_amended ⟨"", [], [("return", "A"), ("return", "B")]⟩

/-- C9 (confirmed). The nullable marker on a `Dictionary` token is silently
discarded, uniformly: for every type token whose core — after variadic-marker
removal, stripping, double-`?` collapsing and removal of all trailing `?` —
is an angle-bracketed generic with base `Dictionary`, `normalize_type`
returns `Record<string, V>` built without ever consulting the nullable flag;
no string of that `Record<...>` shape ends in `| undefined`; and every
parameter whose normalized type has that shape is rendered as a required
(non-rest, non-optional) parameter `name: Record<string, V>`. The claimed
instance family `Dictionary<string, V>?` is also checked for every value
type of the primitive table and for an opaque value type. -/
theorem c9_dictionary_nullable :
    (∀ (fuel : Nat) (raw0 : String),
      pyContains (pyRstrip (pyReplace (pyStrip (pyReplace raw0 "params " "")) "??" "?") '?')
        '<' = true →
      pyContains (pyRstrip (pyReplace (pyStrip (pyReplace raw0 "params " "")) "??" "?") '?')
        '>' = true →
      (pySplitOn (pyRstrip (pyReplace (pyStrip (pyReplace raw0 "params " "")) "??" "?") '?')
        "<").headD "" = "Dictionary" →
      normalize_type (fuel + 1) raw0 =
        "Record<string, " ++
          (let raw := pyRstrip (pyReplace (pyStrip (pyReplace raw0 "params " "")) "??" "?") '?'
           let inner := pyRstrip (pyIntercalate "<" (pySplitOn raw "<").tail) '>'
           let parts2 := (pySplitOn inner ",").map pyStrip
           let arg2 := parts2.getD 1 ""
           if parts2.length == 2 then (if arg2 = "" then "void" else normalize_type fuel arg2)
           else "any") ++ ">") ∧
    (∀ v : String, pyEndsWith ("Record<string, " ++ v ++ ">") "| undefined" = false) ∧
    (∀ (p : Param) (v : String),
      mapType (text p.type) = "Record<string, " ++ v ++ ">" →
      render_param p = param_name p ++ ": " ++ mapType (text p.type)) ∧
    (CSHARP_TO_TS.all (fun q =>
      normalizeType ("Dictionary<string, " ++ q.1 ++ ">?") ==
        "Record<string, " ++ q.2 ++ ">") = true) ∧
    render_param ⟨some "name", some "Dictionary<string, CName>?", none⟩ =
      "name: Record<string, CName>" := by
  refine ⟨?_, pyEndsWith_record_undefined, ?_, by decide, by decide⟩
  · intro fuel raw0 h1 h2 h3
    simp only [normalize_type, h1, h2, h3, Bool.and_self, if_true, GENERIC_COLLECTIONS]
    simp
  · intro p v h
    simp [render_param, h, pyEndsWith_record_brackets, pyEndsWith_record_undefined]

/-- C9, witness: the general Dictionary characterization applied at the
concrete token `Dictionary<string, bool>?`, whose hypotheses hold by
evaluation: the marker is discarded and the parameter renders required. -/
theorem c9_witness :
    normalize_type (25 + 1) "Dictionary<string, bool>?" = "Record<string, boolean>" ∧
    render_param ⟨some "name", some "Dictionary<string, bool>?", none⟩ =
      "name: Record<string, boolean>" := by
  constructor
  · rw [c9_dictionary_nullable.1 25 "Dictionary<string, bool>?"
      (by decide) (by decide) (by decide)]
    decide
  · rw [c9_dictionary_nullable.2.2.1 ⟨some "name", some "Dictionary<string, bool>?", none⟩
      "boolean" (by decide)]
    decide

/-- C10 (confirmed). A parameter element carrying no declared name (a
missing — or empty, which Python's `or` treats alike — `declname`) is
rendered with the fixed placeholder name `arg`: its rendering is exactly
that of the same parameter explicitly named `arg`, and never fails or uses
an empty name. -/
theorem c10_missing_declname (p : Param)
    (h : p.declname = none ∨ p.declname = some "") :
    param_name p = "arg" ∧
    render_param p = render_param ⟨some "arg", p.type, p.defval⟩ := by
  have hname : param_name p = "arg" := by
    rcases h with h | h <;> simp [param_name, pyOr, h]
  refine ⟨hname, ?_⟩
  have harg : param_name ⟨some "arg", p.type, p.defval⟩ = "arg" := by
    simp [param_name, pyOr]
  simp [render_param, hname, harg]

/-- C10, witness: a parameter with a missing `declname` and type token `int`
renders exactly like one named `arg`. -/
theorem c10_witness :
    param_name ⟨none, some "int", none⟩ = "arg" ∧
    render_param ⟨none, some "int", none⟩ = render_param ⟨some "arg", some "int", none⟩ :=
  c10_missing_declname ⟨none, some "int", none⟩ (Or.inl rfl)
